import Mathlib

/-!
Shallow embedding of the preflight dependency/file-change resolvers of the
Pacsea package tool.  External subprocess invocations (pacman, paru, yay,
curl) are modelled by an explicit environment of oracles describing each
command's outcome; all parsing and classification logic is translated
directly from the Rust sources in src/logic/files.rs and
src/logic/deps/resolve.rs.
-/

namespace Pacsea

/-! # String helpers mirroring the Rust standard library operations used -/

/-- Splits a character list at every occurrence of the separator. -/
def splitListOn (c : Char) : List Char → List (List Char)
  | [] => [[]]
  | x :: xs =>
    let rest := splitListOn c xs
    if x = c then [] :: rest
    else match rest with
      | [] => [[x]]
      | r :: rs => (x :: r) :: rs

/-- Drops a single trailing carriage return, as Rust's str::lines does. -/
def stripCR (l : List Char) : List Char :=
  match l.getLast? with
  | some '\r' => l.dropLast
  | _ => l

/-- Model of Rust's str::lines: split on newline, dropping the final empty
segment produced by a trailing newline, and stripping a trailing CR. -/
def rustLines (s : String) : List String :=
  let parts := splitListOn '\n' s.data
  let parts := if parts.getLast? = some [] then parts.dropLast else parts
  parts.map (fun l => String.mk (stripCR l))

/-- Index of the first occurrence of a character, as Rust's str::find. -/
def findCharIdx (c : Char) : List Char → Option Nat
  | [] => none
  | x :: xs =>
    if x = c then some 0
    else (findCharIdx c xs).map (· + 1)

/-- Index of the last occurrence of a character, as Rust's str::rfind. -/
def findLastCharIdx (c : Char) (l : List Char) : Option Nat :=
  match findCharIdx c l.reverse with
  | some i => some (l.length - 1 - i)
  | none => none

/-- Index of the first occurrence of a pattern list, as Rust's str::find
with a string pattern. -/
def findSubIdx (pat : List Char) : List Char → Option Nat
  | [] => if pat = [] then some 0 else none
  | x :: xs =>
    if pat.isPrefixOf (x :: xs) then some 0
    else (findSubIdx pat xs).map (· + 1)

/-- Model of Rust's str::contains for a string pattern. -/
def rustContains (s sub : String) : Bool :=
  (findSubIdx sub.data s.data).isSome

/-- Model of Rust's str::starts_with for a string pattern. -/
def rustStartsWith (s p : String) : Bool :=
  p.data.isPrefixOf s.data

/-- Model of Rust's str::ends_with for a string pattern. -/
def rustEndsWith (s p : String) : Bool :=
  p.data.isSuffixOf s.data

/-- Model of Rust's str::trim_start. -/
def rustTrimStart (s : String) : String :=
  String.mk (s.data.dropWhile Char.isWhitespace)

/-- Model of Rust's str::trim_end. -/
def rustTrimEnd (s : String) : String :=
  String.mk ((s.data.reverse.dropWhile Char.isWhitespace).reverse)

/-- Model of Rust's str::trim. -/
def rustTrim (s : String) : String :=
  rustTrimEnd (rustTrimStart s)

/-- Model of Rust's str::split_once for a character separator: the pieces
before and after the first occurrence, or none when absent. -/
def splitOnceChar (c : Char) (s : String) : Option (String × String) :=
  match findCharIdx c s.data with
  | some i => some (String.mk (s.data.take i), String.mk (s.data.drop (i + 1)))
  | none => none

/-- Model of Rust's str::split_whitespace: maximal non-whitespace runs. -/
def splitWhitespaceAux : List Char → List Char → List String
  | [], acc => if acc = [] then [] else [String.mk acc.reverse]
  | x :: xs, acc =>
    if x.isWhitespace then
      if acc = [] then splitWhitespaceAux xs []
      else String.mk acc.reverse :: splitWhitespaceAux xs []
    else splitWhitespaceAux xs (x :: acc)

/-- Model of Rust's str::split_whitespace. -/
def splitWhitespace (s : String) : List String :=
  splitWhitespaceAux s.data []

/-- Model of Rust's str::contains with a character pattern. -/
def strContainsChar (s : String) (c : Char) : Bool :=
  s.data.contains c

/-- Count of occurrences of a character, as Rust's str::matches(c).count(). -/
def countChar (c : Char) (s : String) : Nat :=
  s.data.countP (· = c)

/-- Insertion step of a stable sort by a boolean "less or equal" test. -/
def insertSorted (le : α → α → Bool) (x : α) : List α → List α
  | [] => [x]
  | y :: ys => if le x y then x :: y :: ys else y :: insertSorted le x ys

/-- Stable insertion sort, modelling Rust's slice::sort_by (the source only
relies on the sorted order, which both algorithms produce). -/
def sortByLe (le : α → α → Bool) : List α → List α
  | [] => []
  | x :: xs => insertSorted le x (sortByLe le xs)

/-- Removal of consecutive duplicates, as Rust's Vec::dedup. -/
def rustDedup [DecidableEq α] : List α → List α
  | [] => []
  | [x] => [x]
  | x :: y :: xs => if x = y then rustDedup (y :: xs) else x :: rustDedup (y :: xs)

/-- Lexicographic order on character lists, modelling Rust's byte-wise
string comparison on the ASCII content the resolvers handle. -/
def charListLe : List Char → List Char → Bool
  | [], _ => true
  | _ :: _, [] => false
  | a :: as, b :: bs => if a = b then charListLe as bs else decide (a < b)

/-- String comparison used when sorting file paths. -/
def strLe (a b : String) : Bool := charListLe a.data b.data

/-- Consecutive chunks of at most n elements (auxiliary accumulator form,
structurally recursive so that the kernel can evaluate it). -/
def chunksOfAux (n : Nat) : List α → List α → Nat → List (List α)
  | [], acc, _ => if acc.isEmpty then [] else [acc.reverse]
  | x :: xs, acc, 0 => acc.reverse :: chunksOfAux n xs [x] (n - 1)
  | x :: xs, acc, Nat.succ k => chunksOfAux n xs (x :: acc) k

/-- Model of Rust's slice::chunks: consecutive chunks of size n, the last
one possibly shorter. -/
def chunksOf (n : Nat) (l : List α) : List (List α) :=
  match l with
  | [] => []
  | x :: xs => chunksOfAux n xs [x] (n - 1)

/-! # Data model

The result structures live in src/state/modal.rs and src/state/types.rs,
which are not part of the provided sources; their fields are reconstructed
exactly from how src/logic/files.rs and src/logic/deps/resolve.rs build
and consume them. -/

/-- Package origin: an official binary repository (with repo and arch
names) or the community AUR. -/
inductive Source where
  | Official (repo : String) (arch : String)
  | Aur
deriving DecidableEq, Repr

/-- Preflight action under analysis. -/
inductive PreflightAction where
  | Install
  | Remove
deriving DecidableEq, Repr

/-- Kind of change a file undergoes. -/
inductive FileChangeType where
  | New
  | Changed
  | Removed
deriving DecidableEq, Repr

/-- One file path under one package, with pacnew/pacsave prediction. -/
structure FileChange where
  path : String
  change_type : FileChangeType
  package : String
  is_config : Bool
  predicted_pacnew : Bool
  predicted_pacsave : Bool
deriving DecidableEq, Repr

/-- Per-package file-change summary. -/
structure PackageFileInfo where
  name : String
  files : List FileChange
  total_count : Nat
  new_count : Nat
  changed_count : Nat
  removed_count : Nat
  config_count : Nat
  pacnew_candidates : Nat
  pacsave_candidates : Nat
deriving DecidableEq, Repr

/-- A package selected for the preflight operation. -/
structure PackageItem where
  name : String
  source : Source
deriving DecidableEq, Repr

/-- Modelled from the spec: the Status Classifier's variant set
(Satisfied / Missing / NeedsUpgrade); the implementation lives in
src/logic/deps/status.rs, which is not part of the provided sources. -/
inductive DepStatus where
  | Satisfied
  | Missing
  | NeedsUpgrade
deriving DecidableEq, Repr

/-- One direct dependency edge discovered for a package. -/
structure DependencyInfo where
  name : String
  version : String
  status : DepStatus
  source : Source
  required_by : List String
  depends_on : List String
  is_core : Bool
  is_system : Bool
deriving DecidableEq, Repr

/-! # External command environment -/

/-- Outcome of a spawned external command: exit success flag plus captured
standard output and standard error text. -/
structure CmdOut where
  success : Bool
  stdout : String
  stderr : String
deriving DecidableEq, Repr

/-- Oracle describing the outcome of every external invocation the
resolvers can make.  A value of none models a spawn failure; some gives
the process outcome.  Boolean fields model the presence probes done via
a helper's version flag. -/
structure Env where
  pacmanFl : List String → Option CmdOut
  pacmanQl : String → Option CmdOut
  pacmanQii : String → Option CmdOut
  pacmanFy : Option CmdOut
  pacmanQi : String → Option CmdOut
  pacmanSi : List String → Option CmdOut
  hasParu : Bool
  hasYay : Bool
  paruFl : String → Option CmdOut
  yayFl : String → Option CmdOut
  paruSi : String → Option CmdOut
  yaySi : String → Option CmdOut
  curl : String → Option CmdOut
  srcinfoFetch : String → Except String String

/-! # util.rs: percent encoding used when building fetch URLs -/

/-- UTF-8 byte sequence of a character, as Rust iterates input.as_bytes(). -/
def utf8Bytes (c : Char) : List Nat :=
  let n := c.toNat
  if n < 0x80 then [n]
  else if n < 0x800 then [0xC0 + n / 64, 0x80 + n % 64]
  else if n < 0x10000 then [0xE0 + n / 4096, 0x80 + (n / 64) % 64, 0x80 + n % 64]
  else [0xF0 + n / 262144, 0x80 + (n / 4096) % 64, 0x80 + (n / 64) % 64, 0x80 + n % 64]

/-- Uppercase hexadecimal digit for a value below 16. -/
def hexDigit (n : Nat) : Char :=
  if n < 10 then Char.ofNat (48 + n) else Char.ofNat (65 + n - 10)

/-- Byte kept verbatim by percent_encode: ASCII alphanumerics and -._~ . -/
def isUnreservedByte (b : Nat) : Bool :=
  decide (0x41 ≤ b ∧ b ≤ 0x5A) || decide (0x61 ≤ b ∧ b ≤ 0x7A) ||
  decide (0x30 ≤ b ∧ b ≤ 0x39) || decide (b = 0x2D) || decide (b = 0x2E) ||
  decide (b = 0x5F) || decide (b = 0x7E)

/-- Embedding of util.rs percent_encode: byte-wise URL encoding with a
special literal %20 arm for space. -/
def percent_encode (input : String) : String :=
  String.mk ((input.data.flatMap utf8Bytes).flatMap (fun b =>
    if isUnreservedByte b then [Char.ofNat b]
    else if b = 0x20 then ['%', '2', '0']
    else ['%', hexDigit (b / 16), hexDigit (b % 16)]))

/-! # files.rs: fetching build recipes and build-description files -/

/-- URL of the AUR-hosted PKGBUILD for a package. -/
def aurPkgbuildUrl (name : String) : String :=
  "https://aur.archlinux.org/cgit/aur.git/plain/PKGBUILD?h=" ++ percent_encode name

/-- URL of the official GitLab PKGBUILD on the main branch. -/
def gitlabMainUrl (name : String) : String :=
  "https://gitlab.archlinux.org/archlinux/packaging/packages/" ++ percent_encode name
    ++ "/-/raw/main/PKGBUILD"

/-- URL of the official GitLab PKGBUILD on the master branch. -/
def gitlabMasterUrl (name : String) : String :=
  "https://gitlab.archlinux.org/archlinux/packaging/packages/" ++ percent_encode name
    ++ "/-/raw/master/PKGBUILD"

/-- URL of the AUR-hosted .SRCINFO for a package. -/
def srcinfoUrl (name : String) : String :=
  "https://aur.archlinux.org/cgit/aur.git/plain/.SRCINFO?h=" ++ percent_encode name

/-- Final fallback of fetch_pkgbuild_sync: the GitLab master branch; this
leg is the only one whose curl failure is propagated as an error. -/
def fetchPkgbuildMaster (name : String) (env : Env) : Except String String :=
  match env.curl (gitlabMasterUrl name) with
  | none => Except.error "curl failed"
  | some out =>
    if !out.success then Except.error "curl failed with status"
    else if rustTrim out.stdout = "" then Except.error "Empty PKGBUILD content"
    else Except.ok out.stdout

/-- Second leg of fetch_pkgbuild_sync: the GitLab main branch, falling
through to the master branch on any unusable outcome. -/
def fetchPkgbuildGitlab (name : String) (env : Env) : Except String String :=
  match env.curl (gitlabMainUrl name) with
  | some out =>
    if out.success && (rustTrim out.stdout != "") then Except.ok out.stdout
    else fetchPkgbuildMaster name env
  | none => fetchPkgbuildMaster name env

/-- Embedding of files.rs fetch_pkgbuild_sync: AUR cgit first (content must
be non-empty and mention pkgname), then GitLab main, then GitLab master. -/
def fetch_pkgbuild_sync (name : String) (env : Env) : Except String String :=
  match env.curl (aurPkgbuildUrl name) with
  | some out =>
    if out.success && (rustTrim out.stdout != "") && rustContains out.stdout "pkgname" then
      Except.ok out.stdout
    else fetchPkgbuildGitlab name env
  | none => fetchPkgbuildGitlab name env

/-- Embedding of files.rs fetch_srcinfo_sync: one curl fetch of the AUR
.SRCINFO; empty content is an error. -/
def fetch_srcinfo_sync (name : String) (env : Env) : Except String String :=
  match env.curl (srcinfoUrl name) with
  | none => Except.error "curl failed"
  | some out =>
    if !out.success then Except.error "curl failed with status"
    else if rustTrim out.stdout = "" then Except.error "Empty .SRCINFO content"
    else Except.ok out.stdout

/-! # files.rs: backup-array parsing -/

/-- One character step of parse_backup_array_content; the state is
(in_quotes, quote_char, current file in reverse, collected files). -/
def parseBackupArrayStep (st : Bool × Char × List Char × List String) (ch : Char) :
    Bool × Char × List Char × List String :=
  let inq := st.1
  let qc := st.2.1
  let cur := st.2.2.1
  let acc := st.2.2.2
  if ch = '\'' || ch = '"' then
    if !inq then (true, ch, cur, acc)
    else if ch = qc then
      if !cur.isEmpty then (false, '\x00', [], acc ++ [String.mk cur.reverse])
      else (false, '\x00', cur, acc)
    else (inq, qc, ch :: cur, acc)
  else if inq then (inq, qc, ch :: cur, acc)
  else (inq, qc, cur, acc)

/-- Embedding of files.rs parse_backup_array_content: extracts the quoted
strings of a bash array body, appending them to the accumulator; a final
unterminated quote still yields its partial content. -/
def parse_backup_array_content (content : String) (backup_files : List String) : List String :=
  let st := content.data.foldl parseBackupArrayStep (false, '\x00', [], backup_files)
  if !st.2.2.1.isEmpty && st.1 then st.2.2.2 ++ [String.mk st.2.2.1.reverse]
  else st.2.2.2

/-- One line step of parse_backup_from_pkgbuild; the state is
(in_backup_array, current_line accumulator, collected files).  The
current_line accumulator is carried exactly as in the source, where it is
written but never read back for output. -/
def parseBackupPkgbuildStep (st : Bool × String × List String) (line0 : String) :
    Bool × String × List String :=
  let inArr := st.1
  let curLine := st.2.1
  let acc := st.2.2
  let line := rustTrim line0
  if line = "" || rustStartsWith line "#" then st
  else if rustStartsWith line "backup=" || rustStartsWith line "backup =" then
    match findCharIdx '(' line.data, findLastCharIdx ')' line.data with
    | some s, some e =>
      (false, "", parse_backup_array_content (String.mk ((line.data.take e).drop (s + 1))) acc)
    | some s, none =>
      (true, line, parse_backup_array_content (String.mk (line.data.drop (s + 1))) acc)
    | none, _ => (true, line, acc)
  else if inArr then
    let curLine' := curLine ++ " " ++ line
    if strContainsChar line ')' then
      match findLastCharIdx ')' line.data with
      | some e => (false, "", parse_backup_array_content (String.mk (line.data.take e)) acc)
      | none => (false, "", acc)
    else (true, curLine', parse_backup_array_content line acc)
  else st

/-- Embedding of files.rs parse_backup_from_pkgbuild: finds the bash
backup= array (single- or multi-line) and collects its quoted entries. -/
def parse_backup_from_pkgbuild (pkgbuild : String) : List String :=
  ((rustLines pkgbuild).foldl parseBackupPkgbuildStep (false, "", [])).2.2

/-- Embedding of files.rs parse_backup_from_srcinfo: collects the values of
backup = path lines of a .SRCINFO file. -/
def parse_backup_from_srcinfo (srcinfo : String) : List String :=
  (rustLines srcinfo).foldl (fun acc line0 =>
    let line := rustTrim line0
    if line = "" || rustStartsWith line "#" then acc
    else match splitOnceChar '=' line with
      | some kv =>
        if rustTrim kv.1 = "backup" && (rustTrim kv.2 != "") then acc ++ [rustTrim kv.2]
        else acc
      | none => acc) []

/-! # files.rs: heuristic install-path extraction from a PKGBUILD -/

/-- Destination-path extraction from one install/cp line mentioning
$pkgdir, returning the normalized absolute path or none when it comes out
empty.  Character positions model the source's byte positions, which
coincide on the ASCII PKGBUILD content handled. -/
def extractPkgdirPath (trimmed : String) : Option String :=
  match findSubIdx "$pkgdir".data trimmed.data with
  | none => none
  | some pos =>
    let after := trimmed.data.drop (pos + 7)
    let pathStart :=
      match after.findIdx? (fun c => !(c = ' ' || c = '/' || c = '"' || c = '\'')) with
      | some i => i
      | none => 0
    let pathPart := after.drop pathStart
    let pathEnd :=
      match pathPart.findIdx? (fun c => c = ' ' || c = '"' || c = '\'' || c = ';') with
      | some i => i
      | none => pathPart.length
    let path := pathPart.take pathEnd
    let path := match path with
      | '/' :: rest => rest
      | _ => path
    if path.isEmpty then none else some (String.mk ('/' :: path))

/-- Install/cp scanning applied to a line inside a package() function. -/
def installLineScan (trimmed : String) (st : Bool × Nat × List String) :
    Bool × Nat × List String :=
  if rustContains trimmed "install" && rustContains trimmed "$pkgdir" then
    match extractPkgdirPath trimmed with
    | some p => (st.1, st.2.1, st.2.2 ++ [p])
    | none => st
  else if rustContains trimmed "cp" && rustContains trimmed "$pkgdir" then
    match extractPkgdirPath trimmed with
    | some p => (st.1, st.2.1, st.2.2 ++ [p])
    | none => st
  else st

/-- One line step of parse_install_paths_from_pkgbuild; the state is
(in_package_function, brace depth, collected paths). -/
def parseInstallStep (st : Bool × Nat × List String) (line0 : String) :
    Bool × Nat × List String :=
  let trimmed := rustTrim line0
  if trimmed = "" || rustStartsWith trimmed "#" then st
  else if rustStartsWith trimmed "package()" || rustStartsWith trimmed "package_" then
    (true, 0, st.2.2)
  else if st.1 then
    let depth := if strContainsChar trimmed '{' then st.2.1 + countChar '{' trimmed else st.2.1
    if strContainsChar trimmed '}' then
      let closing := countChar '}' trimmed
      let depth' := if closing ≤ depth then depth - closing else 0
      if depth' = 0 then (false, depth', st.2.2)
      else installLineScan trimmed (true, depth', st.2.2)
    else installLineScan trimmed (true, depth, st.2.2)
  else st

/-- Heuristic scan of package() bodies for install/cp destinations,
sorted and deduplicated; this is the part of
parse_install_paths_from_pkgbuild before the last-resort defaults. -/
def parse_install_paths_core (pkgbuild : String) : List String :=
  rustDedup (sortByLe strLe ((rustLines pkgbuild).foldl parseInstallStep (false, 0, [])).2.2)

/-- Embedding of files.rs parse_install_paths_from_pkgbuild: heuristic
extraction, defaulting to /usr/bin/name and /usr/share/name when the scan
finds nothing. -/
def parse_install_paths_from_pkgbuild (pkgbuild : String) (pkgname : String) : List String :=
  let files := parse_install_paths_core pkgbuild
  if files.isEmpty then ["/usr/bin/" ++ pkgname, "/usr/share/" ++ pkgname]
  else files

/-! # files.rs: file-list queries -/

/-- Second components of pacman-style "pkg path" output lines, as the
source's split_once-based loops extract them. -/
def pathsFromPkgPathLines (text : String) : List String :=
  (rustLines text).filterMap (fun line => (splitOnceChar ' ' line).map (fun p => p.2))

/-- Embedding of files.rs get_installed_file_list: pacman -Ql, with the
"was not found" stderr treated as an empty success. -/
def get_installed_file_list (name : String) (env : Env) : Except String (List String) :=
  match env.pacmanQl name with
  | none => Except.error "pacman -Ql failed"
  | some out =>
    if !out.success then
      if rustContains out.stderr "was not found" then Except.ok []
      else Except.error ("pacman -Ql failed for " ++ name)
    else Except.ok (pathsFromPkgPathLines out.stdout)

/-- Line loop of get_backup_files_from_installed: collects the Backup
Files field including indented continuation lines, stopping at the first
non-indented line after the section (the source's break). -/
def backupFilesLinesLoop : List String → Bool → List String → List String
  | [], _, acc => acc
  | line :: rest, inSec, acc =>
    if rustStartsWith line "Backup Files" then
      let acc' :=
        match findCharIdx ':' line.data with
        | some colon =>
          let filesStr := rustTrim (String.mk (line.data.drop (colon + 1)))
          if (filesStr != "") && (filesStr != "None") then acc ++ splitWhitespace filesStr
          else acc
        | none => acc
      backupFilesLinesLoop rest true acc'
    else if inSec then
      if rustStartsWith line "    " || rustStartsWith line "\t" then
        backupFilesLinesLoop rest true (acc ++ splitWhitespace line)
      else acc
    else backupFilesLinesLoop rest false acc

/-- Embedding of files.rs get_backup_files_from_installed: pacman -Qii,
"was not found" treated as empty success, then Backup Files parsing. -/
def get_backup_files_from_installed (name : String) (env : Env) : Except String (List String) :=
  match env.pacmanQii name with
  | none => Except.error "pacman -Qii failed"
  | some out =>
    if !out.success then
      if rustContains out.stderr "was not found" then Except.ok []
      else Except.error ("pacman -Qii failed for " ++ name)
    else Except.ok (backupFilesLinesLoop (rustLines out.stdout) false [])

/-- PKGBUILD leg of backup discovery: fetch the recipe and parse its
backup array, degrading to an empty success on any failure. -/
def pkgbuildBackupResult (name : String) (env : Env) : Except String (List String) :=
  match fetch_pkgbuild_sync name env with
  | Except.ok pkgbuild =>
    let b := parse_backup_from_pkgbuild pkgbuild
    if !b.isEmpty then Except.ok b else Except.ok []
  | Except.error _ => Except.ok []

/-- Source-dependent fallback of get_backup_files, reached when the
installed-package query yields nothing. -/
def get_backup_files_fallback (name : String) (source : Source) (env : Env) :
    Except String (List String) :=
  match source with
  | Source.Official _ _ => pkgbuildBackupResult name env
  | Source.Aur =>
    match fetch_srcinfo_sync name env with
    | Except.ok srcinfo =>
      let b := parse_backup_from_srcinfo srcinfo
      if !b.isEmpty then Except.ok b else pkgbuildBackupResult name env
    | Except.error _ => pkgbuildBackupResult name env

/-- Embedding of files.rs get_backup_files: the installed package's Backup
Files field first, then the source-dependent recipe fallback. -/
def get_backup_files (name : String) (source : Source) (env : Env) :
    Except String (List String) :=
  match get_backup_files_from_installed name env with
  | Except.ok backup_files =>
    if !backup_files.isEmpty then Except.ok backup_files
    else get_backup_files_fallback name source env
  | Except.error _ => get_backup_files_fallback name source env

/-- Repository-qualified package spec passed to pacman -Fl. -/
def officialSpec (repo name : String) : String :=
  if repo = "" then name else repo ++ "/" ++ name

/-- File list obtained from one AUR helper's -Fl query: empty unless the
helper is present and its query succeeds. -/
def helper_fl_files (has : Bool) (res : Option CmdOut) : List String :=
  if has then
    match res with
    | some out => if out.success then pathsFromPkgPathLines out.stdout else []
    | none => []
  else []

/-- Embedding of files.rs get_remote_file_list.  Official: one pacman -Fl
query, with the never-synced file database degraded to an empty success.
AUR: installed files, then paru -Fl, then yay -Fl, then PKGBUILD
heuristics, then an empty success. -/
def get_remote_file_list (name : String) (source : Source) (env : Env) :
    Except String (List String) :=
  match source with
  | Source.Official repo _ =>
    match env.pacmanFl [officialSpec repo name] with
    | none => Except.error "pacman -Fl failed"
    | some out =>
      if !out.success then
        if rustContains out.stderr "database file" && rustContains out.stderr "does not exist" then
          Except.ok []
        else Except.error ("pacman -Fl failed for " ++ officialSpec repo name)
      else Except.ok (pathsFromPkgPathLines out.stdout)
  | Source.Aur =>
    let installedStep : Option (List String) :=
      match get_installed_file_list name env with
      | Except.ok l => if !l.isEmpty then some l else none
      | Except.error _ => none
    match installedStep with
    | some l => Except.ok l
    | none =>
      let paruFiles := helper_fl_files env.hasParu (env.paruFl name)
      if !paruFiles.isEmpty then Except.ok paruFiles
      else
        let yayFiles := helper_fl_files env.hasYay (env.yayFl name)
        if !yayFiles.isEmpty then Except.ok yayFiles
        else
          match fetch_pkgbuild_sync name env with
          | Except.ok pkgbuild =>
            let files := parse_install_paths_from_pkgbuild pkgbuild name
            if !files.isEmpty then Except.ok files
            else Except.ok []
          | Except.error _ => Except.ok []

/-! # files.rs: diff computation -/

/-- Per-path step of the install diff loop: directories are skipped, other
paths are classified New or Changed against the installed set, and a
pacnew is predicted for backed-up, already-present config files. -/
def mkInstallFileChange (name : String) (installedSet backupSet : List String)
    (path : String) : Option FileChange :=
  let is_config := rustStartsWith path "/etc/"
  let is_dir := rustEndsWith path "/"
  if is_dir then none
  else
    let change_type :=
      if installedSet.contains path then FileChangeType.Changed else FileChangeType.New
    let predicted_pacnew :=
      backupSet.contains path && installedSet.contains path && is_config
    some ⟨path, change_type, name, is_config, predicted_pacnew, false⟩

/-- Embedding of files.rs resolve_install_files_with_remote_list; the
source's running counters are expressed as counts over the generated
change list, which the loop makes them equal to. -/
def resolve_install_files_with_remote_list (name : String) (source : Source)
    (remote_files : List String) (env : Env) : Except String PackageFileInfo :=
  let installed_files := (get_installed_file_list name env).toOption.getD []
  let backup_files := (get_backup_files name source env).toOption.getD []
  let file_changes := remote_files.filterMap (mkInstallFileChange name installed_files backup_files)
  let new_count := file_changes.countP (fun fc => decide (fc.change_type = FileChangeType.New))
  let changed_count := file_changes.countP (fun fc => decide (fc.change_type = FileChangeType.Changed))
  let config_count := file_changes.countP (fun fc => fc.is_config)
  let pacnew_candidates := file_changes.countP (fun fc => fc.predicted_pacnew)
  let sorted := sortByLe (fun a b => strLe a.path b.path) file_changes
  Except.ok ⟨name, sorted, new_count + changed_count, new_count, changed_count, 0,
    config_count, pacnew_candidates, 0⟩

/-- Per-path step of the remove loop: directories skipped, everything else
Removed, with a pacsave predicted for backed-up config files. -/
def mkRemoveFileChange (name : String) (backupSet : List String) (path : String) :
    Option FileChange :=
  let is_config := rustStartsWith path "/etc/"
  if rustEndsWith path "/" then none
  else
    let predicted_pacsave := backupSet.contains path && is_config
    some ⟨path, FileChangeType.Removed, name, is_config, false, predicted_pacsave⟩

/-- Embedding of files.rs resolve_remove_files.  Note that the backup set
is looked up with a hard-coded Official source with empty repo and arch,
exactly as in the source. -/
def resolve_remove_files (name : String) (env : Env) : Except String PackageFileInfo :=
  match get_installed_file_list name env with
  | Except.error e => Except.error e
  | Except.ok installed_files =>
    let backup_files := (get_backup_files name (Source.Official "" "") env).toOption.getD []
    let file_changes := installed_files.filterMap (mkRemoveFileChange name backup_files)
    let config_count := file_changes.countP (fun fc => fc.is_config)
    let pacsave_candidates := file_changes.countP (fun fc => fc.predicted_pacsave)
    let sorted := sortByLe (fun a b => strLe a.path b.path) file_changes
    let removed_count := sorted.length
    Except.ok ⟨name, sorted, removed_count, 0, 0, removed_count, config_count, 0,
      pacsave_candidates⟩

/-- Embedding of files.rs resolve_install_files: remote list first, then
the diff against local state. -/
def resolve_install_files (name : String) (source : Source) (env : Env) :
    Except String PackageFileInfo :=
  match get_remote_file_list name source env with
  | Except.error e => Except.error e
  | Except.ok remote => resolve_install_files_with_remote_list name source remote env

/-- Embedding of files.rs resolve_package_files: dispatch on the action. -/
def resolve_package_files (name : String) (source : Source)
    (action : PreflightAction) (env : Env) : Except String PackageFileInfo :=
  match action with
  | PreflightAction.Install => resolve_install_files name source env
  | PreflightAction.Remove => resolve_remove_files name env

/-! # files.rs: batched remote file lists and the top-level resolver -/

/-- Name-keyed map of string lists, modelling the HashMaps of the source;
only lookups are observable, so the entry order is irrelevant. -/
abbrev FileListMap := List (String × List String)

/-- Lookup in a name-keyed map. -/
def lookupA (m : FileListMap) (k : String) : Option (List String) :=
  (m.find? (fun p => p.1 == k)).map (fun p => p.2)

/-- Insert-or-replace, the HashMap::insert semantics. -/
def insertReplace (m : FileListMap) (k : String) (v : List String) : FileListMap :=
  (k, v) :: m.filter (fun p => p.1 != k)

/-- Append one value to a key's entry, creating the entry when absent;
the entry().or_default().push(..) idiom of the source. -/
def insertAppend (m : FileListMap) (k : String) (v : String) : FileListMap :=
  match lookupA m k with
  | some l => insertReplace m k (l ++ [v])
  | none => m ++ [(k, [v])]

/-- Extension of one map by another, new entries replacing old ones, the
HashMap::extend semantics. -/
def extendMap (m new : FileListMap) : FileListMap :=
  new.foldl (fun acc p => insertReplace acc p.1 p.2) m

/-- Grouping of pacman -Fl output lines by package name (repo prefix
stripped), as batch_get_remote_file_lists parses a chunk's output. -/
def parseFlGrouped (text : String) : FileListMap :=
  (rustLines text).foldl (fun m line =>
    match splitOnceChar ' ' line with
    | some pkgPath =>
      let pkgName :=
        match splitOnceChar '/' pkgPath.1 with
        | some pr => pr.2
        | none => pkgPath.1
      insertAppend m pkgName pkgPath.2
    | none => m) []

/-- Grouping of official packages by repository.  The source iterates a
HashMap whose order is unspecified; the model fixes first-insertion
order, which only affects which same-named entry wins an overwrite. -/
def repoGroups (packages : List (String × Source)) : FileListMap :=
  packages.foldl (fun acc p =>
    match p.2 with
    | Source.Official repo _ => insertAppend acc repo p.1
    | Source.Aur => acc) []

/-- Chunk loop of batch_get_remote_file_lists for one repository group:
one pacman -Fl query per chunk of names, stopping the group's batching at
the first failed query (the source's break). -/
def batchFilesLoop (env : Env) (repo : String) : FileListMap → List (List String) → FileListMap
  | acc, [] => acc
  | acc, chunk :: rest =>
    match env.pacmanFl (chunk.map (officialSpec repo)) with
    | some out =>
      if out.success then batchFilesLoop env repo (extendMap acc (parseFlGrouped out.stdout)) rest
      else acc
    | none => acc

/-- Embedding of files.rs batch_get_remote_file_lists: group by repo,
chunk each group by 50, one repository-qualified query per chunk. -/
def batch_get_remote_file_lists (packages : List (String × Source)) (env : Env) : FileListMap :=
  (repoGroups packages).foldl (fun acc rg => batchFilesLoop env rg.1 acc (chunksOf 50 rg.2)) []

/-- The all-zero entry pushed for an item whose resolution failed. -/
def emptyPackageFileInfo (name : String) : PackageFileInfo :=
  ⟨name, [], 0, 0, 0, 0, 0, 0, 0⟩

/-- Whether a source is an official repository. -/
def isOfficialSource : Source → Bool
  | Source.Official _ _ => true
  | Source.Aur => false

/-- The batched remote-file cache computed by resolve_file_changes before
its per-item loop: official items only, Install action only. -/
def filesBatchCache (items : List PackageItem) (action : PreflightAction) (env : Env) :
    FileListMap :=
  let official := items.filterMap (fun it =>
    if isOfficialSource it.source then some (it.name, it.source) else none)
  if !official.isEmpty && decide (action = PreflightAction.Install) then
    batch_get_remote_file_lists official env
  else []

/-- The per-item resolution outcome inside resolve_file_changes's loop:
a batched cache hit feeds resolve_install_files_with_remote_list, anything
else goes through resolve_package_files. -/
def resolveOneItemResult (cache : FileListMap) (action : PreflightAction) (env : Env)
    (item : PackageItem) : Except String PackageFileInfo :=
  let use_batched := decide (action = PreflightAction.Install) && isOfficialSource item.source
    && (lookupA cache item.name).isSome
  if use_batched then
    resolve_install_files_with_remote_list item.name item.source
      ((lookupA cache item.name).getD []) env
  else
    resolve_package_files item.name item.source action env

/-- The entry pushed for one item: the resolved info, or the all-zero
placeholder keeping the package order stable when resolution failed. -/
def resolveOneItem (cache : FileListMap) (action : PreflightAction) (env : Env)
    (item : PackageItem) : PackageFileInfo :=
  match resolveOneItemResult cache action env item with
  | Except.ok info => info
  | Except.error _ => emptyPackageFileInfo item.name

/-- Embedding of files.rs resolve_file_changes.  The initial best-effort
file-database sync (ensure_file_db_synced) is invoked by the source purely
for its side effect and its outcome is only logged, so it does not appear
in the returned value and is omitted here. -/
def resolve_file_changes (items : List PackageItem) (action : PreflightAction) (env : Env) :
    List PackageFileInfo :=
  if items.isEmpty then []
  else items.map (resolveOneItem (filesBatchCache items action env) action env)

/-! # deps/resolve.rs: dependency resolution

The helper modules deps/parse.rs, deps/srcinfo.rs, deps/status.rs and
deps/source.rs are not part of the provided sources; the functions they
export are modelled from the spec as documented on each definition.  The
control flow below is translated from deps/resolve.rs itself. -/

/-- Modelled from the spec: parse_dep_spec (src/logic/deps/parse.rs, not in
the provided sources).  A token such as "foo>=1.2" splits into the name
"foo" and the requirement ">=1.2"; a bare name yields an empty
requirement. -/
def parse_dep_spec (spec : String) : String × String :=
  match spec.data.findIdx? (fun c => c = '<' || c = '>' || c = '=') with
  | some i => (String.mk (spec.data.take i), String.mk (spec.data.drop i))
  | none => (spec, "")

/-- Modelled from the spec: the Depends On field extraction of
parse_pacman_si_deps (src/logic/deps/parse.rs, not in the provided
sources), over the lines of one metadata block: whitespace-separated
tokens after the colon, with the None placeholder dropped. -/
def parsePacmanSiDepsLines (ls : List String) : List String :=
  ls.foldl (fun acc line =>
    if rustStartsWith (rustTrimStart line) "Depends On" then
      match splitOnceChar ':' line with
      | some kv => acc ++ ((splitWhitespace kv.2).filter (fun t => t != "None"))
      | none => acc
    else acc) []

/-- Modelled from the spec: parse_pacman_si_deps on a whole output text. -/
def parse_pacman_si_deps (text : String) : List String :=
  parsePacmanSiDepsLines (rustLines text)

/-- Values of one key of a .SRCINFO key = value file, mirroring the
in-source parse_backup_from_srcinfo line discipline. -/
def srcinfoValuesFor (key : String) (srcinfo : String) : List String :=
  (rustLines srcinfo).foldl (fun acc line0 =>
    let line := rustTrim line0
    if line = "" || rustStartsWith line "#" then acc
    else match splitOnceChar '=' line with
      | some kv =>
        if rustTrim kv.1 = key && (rustTrim kv.2 != "") then acc ++ [rustTrim kv.2]
        else acc
      | none => acc) []

/-- Modelled from the spec: parse_srcinfo_deps (src/logic/deps/srcinfo.rs,
not in the provided sources) returns the depends, makedepends,
checkdepends and optdepends entry lists of a .SRCINFO file. -/
def parse_srcinfo_deps (srcinfo : String) :
    List String × List String × List String × List String :=
  (srcinfoValuesFor "depends" srcinfo, srcinfoValuesFor "makedepends" srcinfo,
   srcinfoValuesFor "checkdepends" srcinfo, srcinfoValuesFor "optdepends" srcinfo)

/-- Modelled from the spec: the Status Classifier determine_status
(src/logic/deps/status.rs, not in the provided sources): satisfied when
the name is installed or provided, needing an upgrade when additionally
listed upgradable, missing otherwise. -/
def determine_status (name : String) (_version_req : String)
    (installed provided upgradable : List String) : DepStatus :=
  if installed.contains name || provided.contains name then
    if upgradable.contains name then DepStatus.NeedsUpgrade else DepStatus.Satisfied
  else DepStatus.Missing

/-- Modelled from the spec: determine_dependency_source
(src/logic/deps/source.rs, not in the provided sources) assigns a coarse
display source and an is-core flag from local-installed knowledge; the
exact designation rules are an open question of the spec and no claim
depends on them. -/
def determine_dependency_source (name : String) (installed : List String) :
    Source × Bool :=
  if installed.contains name then (Source.Official "core" "", true)
  else (Source.Aur, false)

/-- Modelled from the spec: is_system_package (src/logic/deps/source.rs,
not in the provided sources); a display-only designation no claim
depends on, modelled as constantly false. -/
def is_system_package (_name : String) : Bool := false

/-- Shared-library pseudo-dependency test applied on every resolver
branch: a name ending in .so or containing .so. or .so= . -/
def soLike (s : String) : Bool :=
  rustEndsWith s ".so" || rustContains s ".so." || rustContains s ".so="

/-- One DependencyInfo record as every branch of resolve_package_deps
constructs it for a surviving dependency token. -/
def mkDependencyInfo (resolved : String) (pkg ver : String)
    (installed provided upgradable : List String) : DependencyInfo :=
  let status := determine_status pkg ver installed provided upgradable
  let sc := determine_dependency_source pkg installed
  ⟨pkg, ver, status, sc.1, [resolved], [], sc.2, sc.2 || is_system_package pkg⟩

/-- The dependency-record loop shared verbatim by the local, official,
paru and yay branches of resolve_package_deps: parse each token, skip
self-references and shared-library pseudo-dependencies, keep the rest. -/
def buildDeps (name : String) (specs : List String)
    (installed provided upgradable : List String) : List DependencyInfo :=
  specs.filterMap (fun spec =>
    let pv := parse_dep_spec spec
    if pv.1 = name then none
    else if soLike pv.1 then none
    else some (mkDependencyInfo name pv.1 pv.2 installed provided upgradable))

/-- One AUR helper's -Si attempt: produces records and a used-helper flag,
which is set only when the helper is present, its query succeeded and the
parsed dependency list is non-empty. -/
def helper_si_deps (has : Bool) (res : Option CmdOut) (name : String)
    (installed provided upgradable : List String) : List DependencyInfo × Bool :=
  if has then
    match res with
    | some out =>
      if out.success then
        let dn := parse_pacman_si_deps out.stdout
        if dn.isEmpty then ([], false)
        else (buildDeps name dn installed provided upgradable, true)
      else ([], false)
    | none => ([], false)
  else ([], false)

/-- The helper-preference step of the AUR branch: paru first, yay only
when paru did not win. -/
def aur_helper_deps (name : String) (installed provided upgradable : List String)
    (env : Env) : List DependencyInfo × Bool :=
  let p := helper_si_deps env.hasParu (env.paruSi name) name installed provided upgradable
  if p.2 then p
  else helper_si_deps env.hasYay (env.yaySi name) name installed provided upgradable

/-- The .SRCINFO merge step of the AUR branch: runtime-category entries
not already present by name are appended, with the same self-reference
and shared-library filtering; the existing-name set is computed once
before the merge, exactly as in the source. -/
def mergeSrcinfo (name : String) (deps1 : List DependencyInfo) (srcinfoText : String)
    (installed provided upgradable : List String) : List DependencyInfo :=
  let parsed := parse_srcinfo_deps srcinfoText
  let existing := deps1.map (fun d => d.name)
  deps1 ++ parsed.1.filterMap (fun spec =>
    let pv := parse_dep_spec spec
    if pv.1 = name then none
    else if soLike pv.1 then none
    else if existing.contains pv.1 then none
    else some (mkDependencyInfo name pv.1 pv.2 installed provided upgradable))

/-- Embedding of deps/resolve.rs resolve_package_deps.  Official local
packages go through pacman -Qi with absence degraded to an empty success;
other official packages through pacman -Si with failure propagated; AUR
packages through the helper-preference chain and the unconditional
.SRCINFO merge, never producing an error. -/
def resolve_package_deps (name : String) (source : Source)
    (installed provided upgradable : List String) (env : Env) :
    Except String (List DependencyInfo) :=
  match source with
  | Source.Official repo _ =>
    if repo = "local" then
      match env.pacmanQi name with
      | none => Except.error "pacman -Qi failed"
      | some out =>
        if !out.success then Except.ok []
        else Except.ok (buildDeps name (parse_pacman_si_deps out.stdout)
          installed provided upgradable)
    else
      match env.pacmanSi [name] with
      | none => Except.error "pacman -Si failed"
      | some out =>
        if !out.success then Except.error ("pacman -Si failed for " ++ name)
        else Except.ok (buildDeps name (parse_pacman_si_deps out.stdout)
          installed provided upgradable)
  | Source.Aur =>
    let hd := aur_helper_deps name installed provided upgradable env
    match env.srcinfoFetch name with
    | Except.ok srcinfoText =>
      Except.ok (mergeSrcinfo name hd.1 srcinfoText installed provided upgradable)
    | Except.error _ => Except.ok hd.1

/-! # deps/resolve.rs: batched official dependency fetch -/

/-- Blocks of a multi-package pacman -Si output, separated by blank
lines, each kept as its list of lines. -/
def siBlocks (text : String) : List (List String) :=
  let st := (rustLines text).foldl (fun (st : List (List String) × List String) line =>
    if rustTrim line = "" then
      if st.2.isEmpty then st else (st.1 ++ [st.2.reverse], [])
    else (st.1, line :: st.2)) ([], [])
  if st.2.isEmpty then st.1 else st.1 ++ [st.2.reverse]

/-- The Name field of one output block, when present. -/
def blockNameOf (ls : List String) : Option String :=
  match ls.find? (fun l => rustStartsWith (rustTrimStart l) "Name") with
  | some nameLine =>
    match splitOnceChar ':' nameLine with
    | some kv => some (rustTrim kv.2)
    | none => none
  | none => none

/-- Insertion of every named block's dependency list of one chunk's
output into the result map. -/
def insertDepEntries (acc : FileListMap) (text : String) : FileListMap :=
  (siBlocks text).foldl (fun m block =>
    let deps := parsePacmanSiDepsLines block
    match blockNameOf block with
    | some nm => insertReplace m nm deps
    | none => m) acc

/-- Chunk loop of batch_fetch_official_deps: one pacman -Si query per
chunk, stopping at the first failed query (the source's break) and
returning what was accumulated so far. -/
def batchDepsLoop (env : Env) : FileListMap → List (List String) → FileListMap
  | acc, [] => acc
  | acc, chunk :: rest =>
    match env.pacmanSi chunk with
    | some out =>
      if out.success then batchDepsLoop env (insertDepEntries acc out.stdout) rest
      else acc
    | none => acc

/-- Embedding of deps/resolve.rs batch_fetch_official_deps: names chunked
by 50, one metadata query per chunk, abort on first failure. -/
def batch_fetch_official_deps (names : List String) (env : Env) : FileListMap :=
  batchDepsLoop env [] (chunksOf 50 names)

/-- Whether one chunk's pacman -Si query fails under an environment:
spawn failure or non-zero exit. -/
def chunkFails (env : Env) (chunk : List String) : Bool :=
  match env.pacmanSi chunk with
  | none => true
  | some out => !out.success

/-! # Concrete environments used to instantiate the theorems -/

/-- Environment in which every external command fails to spawn and no AUR
helper is present. -/
def noEnv : Env :=
  ⟨fun _ => none, fun _ => none, fun _ => none, none, fun _ => none, fun _ => none,
   false, false, fun _ => none, fun _ => none, fun _ => none, fun _ => none,
   fun _ => none, fun _ => Except.error "unavailable"⟩

/-- Environment replaying the repository's own stubbed-pacman test: a
remote file list with a config file, a directory and a new binary, one
installed config file, and that config file in the backup array. -/
def testEnvInstall : Env :=
  { noEnv with
    pacmanFl := fun _ =>
      some ⟨true, "pkg /etc/app.conf\npkg /usr/share/doc/\npkg /usr/bin/newtool\n", ""⟩,
    pacmanQl := fun _ => some ⟨true, "pkg /etc/app.conf\n", ""⟩,
    pacmanQii := fun _ => some ⟨true, "Backup Files  : /etc/app.conf\n", ""⟩ }

/-- The install-side summary testEnvInstall produces for package pkg. -/
def c2wInfo : PackageFileInfo :=
  ⟨"pkg",
   [⟨"/etc/app.conf", FileChangeType.Changed, "pkg", true, true, false⟩,
    ⟨"/usr/bin/newtool", FileChangeType.New, "pkg", false, false, false⟩],
   2, 1, 1, 0, 1, 1, 0⟩

/-- The changed config record of c2wInfo. -/
def c2wFc : FileChange := ⟨"/etc/app.conf", FileChangeType.Changed, "pkg", true, true, false⟩

/-- The remove-side summary testEnvInstall produces for package pkg. -/
def c3wRemoveInfo : PackageFileInfo :=
  ⟨"pkg", [⟨"/etc/app.conf", FileChangeType.Removed, "pkg", true, false, true⟩],
   1, 0, 0, 1, 1, 0, 1⟩

/-- Environment replaying the repository's stubbed official dependency
test: pacman -Si reports a real dependency, a shared-library
pseudo-dependency and a versioned dependency. -/
def c8wEnv : Env :=
  { noEnv with
    pacmanSi := fun _ =>
      some ⟨true, "Name            : pkg\nDepends On      : dep1 libplaceholder.so other>=1.2\n", ""⟩ }

/-- Dependency list c8wEnv resolves for pkg from the extra repository. -/
def c8wList : List DependencyInfo :=
  [mkDependencyInfo "pkg" "dep1" "" [] [] [], mkDependencyInfo "pkg" "other" ">=1.2" [] [] []]

/-- Environment replaying the repository's stubbed AUR helper test: paru
present, reporting a self-reference and two real dependencies, with the
.SRCINFO fetch unavailable. -/
def c9wEnv : Env :=
  { noEnv with
    hasParu := true,
    paruSi := fun _ =>
      some ⟨true, "Name            : pkg\nDepends On      : pkg helper extra>=2.0\n", ""⟩ }

/-- Dependency list c9wEnv resolves for AUR package pkg. -/
def c9wList : List DependencyInfo :=
  [mkDependencyInfo "pkg" "helper" "" [] [] [], mkDependencyInfo "pkg" "extra" ">=2.0" [] [] []]

/-- Environment for an AUR package that is not installed, with no helper,
whose PKGBUILD fetch succeeds but contains no package() install commands. -/
def c7wEnv : Env :=
  { noEnv with
    pacmanQl := fun _ => some ⟨false, "", "error: package was not found"⟩,
    curl := fun u =>
      if u = aurPkgbuildUrl "pkg" then some ⟨true, "pkgname=pkg\n", ""⟩ else none }

/-- Environment whose remote file-listing query fails because the file
database was never synced. -/
def c10wEnv : Env :=
  { noEnv with
    pacmanFl := fun _ =>
      some ⟨false, "", "error: database file core.files does not exist"⟩ }

/-- Environment of an installed AUR package with no recorded backup files,
whose .SRCINFO declares /etc/a.conf as backed up while its PKGBUILD
declares /etc/b.conf. -/
def c6ceEnv : Env :=
  { noEnv with
    pacmanQl := fun _ => some ⟨true, "pkg /etc/a.conf\npkg /etc/b.conf\n", ""⟩,
    pacmanQii := fun _ => some ⟨true, "Backup Files    : None\n", ""⟩,
    curl := fun u =>
      if u = srcinfoUrl "pkg" then some ⟨true, "backup = /etc/a.conf\n", ""⟩
      else if u = aurPkgbuildUrl "pkg" then
        some ⟨true, "pkgname=pkg\nbackup=('/etc/b.conf')\n", ""⟩
      else none }

/-- Environment whose .SRCINFO is available but declares no backup entry,
while the PKGBUILD declares /etc/b.conf. -/
def c6ceEnv2 : Env :=
  { noEnv with
    pacmanQii := fun _ => some ⟨true, "Backup Files    : None\n", ""⟩,
    curl := fun u =>
      if u = srcinfoUrl "pkg" then some ⟨true, "pkgbase = pkg\npkgname = pkg\n", ""⟩
      else if u = aurPkgbuildUrl "pkg" then
        some ⟨true, "pkgname=pkg\nbackup=('/etc/b.conf')\n", ""⟩
      else none }

/-- Environment with an installed package whose Backup Files field is
populated. -/
def c6wEnvA : Env :=
  { noEnv with pacmanQii := fun _ => some ⟨true, "Backup Files  : /etc/app.conf\n", ""⟩ }

/-- Environment with no installed-package data and a .SRCINFO declaring
one backup entry. -/
def c6wEnvB : Env :=
  { noEnv with
    curl := fun u =>
      if u = srcinfoUrl "pkg" then some ⟨true, "backup = /etc/a.conf\n", ""⟩ else none }

/-- c6ceEnv with a different answer recorded for the .SRCINFO fetch only. -/
def c6wEnvE : Env :=
  { c6ceEnv with
    curl := fun u =>
      if u = srcinfoUrl "pkg" then some ⟨true, "backup = /etc/zzz.conf\n", ""⟩
      else c6ceEnv.curl u }

/-! # Generic lemmas about the list helpers -/

theorem mem_insertSorted {le : α → α → Bool} {x a : α} {l : List α} :
    x ∈ insertSorted le a l ↔ x = a ∨ x ∈ l := by
  induction l with
  | nil => simp [insertSorted]
  | cons y ys ih =>
    by_cases h : le a y = true
    · simp [insertSorted, h]
    · simp only [insertSorted, h]
      simp only [Bool.false_eq_true, if_false, List.mem_cons, ih]
      tauto

theorem mem_sortByLe {le : α → α → Bool} {x : α} {l : List α} :
    x ∈ sortByLe le l ↔ x ∈ l := by
  induction l with
  | nil => simp [sortByLe]
  | cons y ys ih => simp [sortByLe, mem_insertSorted, ih]

/-! # Shape lemmas for the diff resolvers -/

theorem mkInstallFileChange_props {name : String} {installedSet backupSet : List String}
    {path : String} {fc : FileChange}
    (h : mkInstallFileChange name installedSet backupSet path = some fc) :
    fc.predicted_pacsave = false ∧
    (fc.predicted_pacnew = true →
      backupSet.contains fc.path = true ∧ installedSet.contains fc.path = true ∧
      fc.is_config = true) := by
  unfold mkInstallFileChange at h
  by_cases hd : rustEndsWith path "/" = true
  · simp [hd] at h
  · simp only [hd, Bool.false_eq_true, if_false, Option.some.injEq] at h
    subst h
    refine ⟨rfl, ?_⟩
    intro ht
    simp only at ht
    rw [Bool.and_eq_true, Bool.and_eq_true] at ht
    exact ⟨ht.1.1, ht.1.2, ht.2⟩

theorem mkRemoveFileChange_props {name : String} {backupSet : List String}
    {path : String} {fc : FileChange}
    (h : mkRemoveFileChange name backupSet path = some fc) :
    fc.predicted_pacnew = false ∧
    (fc.predicted_pacsave = true →
      backupSet.contains fc.path = true ∧ fc.is_config = true) := by
  unfold mkRemoveFileChange at h
  by_cases hd : rustEndsWith path "/" = true
  · simp [hd] at h
  · simp only [hd, Bool.false_eq_true, if_false, Option.some.injEq] at h
    subst h
    refine ⟨rfl, ?_⟩
    intro ht
    simp only at ht
    rw [Bool.and_eq_true] at ht
    exact ⟨ht.1, ht.2⟩

theorem rifwrl_files {name : String} {source : Source} {remote : List String} {env : Env}
    {info : PackageFileInfo}
    (h : resolve_install_files_with_remote_list name source remote env = Except.ok info) :
    info.files = sortByLe (fun a b => strLe a.path b.path)
      (remote.filterMap (mkInstallFileChange name
        ((get_installed_file_list name env).toOption.getD [])
        ((get_backup_files name source env).toOption.getD []))) := by
  injection h with h
  rw [← h]

theorem rifwrl_counts {name : String} {source : Source} {remote : List String} {env : Env}
    {info : PackageFileInfo}
    (h : resolve_install_files_with_remote_list name source remote env = Except.ok info) :
    info.name = name ∧ info.total_count = info.new_count + info.changed_count ∧
    info.removed_count = 0 ∧ info.pacsave_candidates = 0 := by
  injection h with h
  rw [← h]
  exact ⟨rfl, rfl, rfl, rfl⟩

theorem remove_files_ok {name : String} {env : Env} {info : PackageFileInfo}
    (h : resolve_remove_files name env = Except.ok info) :
    ∃ installed_files, get_installed_file_list name env = Except.ok installed_files ∧
    info.files = sortByLe (fun a b => strLe a.path b.path)
      (installed_files.filterMap (mkRemoveFileChange name
        ((get_backup_files name (Source.Official "" "") env).toOption.getD []))) ∧
    info.name = name ∧ info.total_count = info.removed_count ∧
    info.new_count = 0 ∧ info.changed_count = 0 ∧ info.pacnew_candidates = 0 := by
  unfold resolve_remove_files at h
  cases hq : get_installed_file_list name env with
  | error e => rw [hq] at h; exact absurd h (by simp)
  | ok installed_files =>
    rw [hq] at h
    injection h with h
    exact ⟨installed_files, rfl, by rw [← h], by rw [← h], by rw [← h], by rw [← h],
      by rw [← h], by rw [← h]⟩

/-- C2: on every FileChange produced by the file-change resolver,
predicted_pacnew holds only for paths in the package's backup set that are
also locally installed and config paths, and only on the Install side
(the install resolver, which never sets predicted_pacsave); predicted_pacsave
holds only for backed-up config paths and only on the Remove side (the
remove resolver, which never sets predicted_pacnew); hence the two flags
are never both true on one record. -/
theorem claim_C2 :
    (∀ (name : String) (source : Source) (remote : List String) (env : Env)
      (info : PackageFileInfo),
      resolve_install_files_with_remote_list name source remote env = Except.ok info →
      ∀ fc ∈ info.files,
        (fc.predicted_pacnew = true →
          ((get_backup_files name source env).toOption.getD []).contains fc.path = true ∧
          ((get_installed_file_list name env).toOption.getD []).contains fc.path = true ∧
          fc.is_config = true) ∧
        fc.predicted_pacsave = false ∧
        ¬(fc.predicted_pacnew = true ∧ fc.predicted_pacsave = true)) ∧
    (∀ (name : String) (env : Env) (info : PackageFileInfo),
      resolve_remove_files name env = Except.ok info →
      ∀ fc ∈ info.files,
        (fc.predicted_pacsave = true →
          ((get_backup_files name (Source.Official "" "") env).toOption.getD []).contains
            fc.path = true ∧
          fc.is_config = true) ∧
        fc.predicted_pacnew = false ∧
        ¬(fc.predicted_pacnew = true ∧ fc.predicted_pacsave = true)) := by
  constructor
  · intro name source remote env info h fc hfc
    rw [rifwrl_files h, mem_sortByLe, List.mem_filterMap] at hfc
    obtain ⟨path, _, hmk⟩ := hfc
    obtain ⟨hsave, hnew⟩ := mkInstallFileChange_props hmk
    exact ⟨hnew, hsave, fun hb => by rw [hsave] at hb; exact absurd hb.2 (by simp)⟩
  · intro name env info h fc hfc
    obtain ⟨installed_files, _, hfiles, _⟩ := remove_files_ok h
    rw [hfiles, mem_sortByLe, List.mem_filterMap] at hfc
    obtain ⟨path, _, hmk⟩ := hfc
    obtain ⟨hnew, hsave⟩ := mkRemoveFileChange_props hmk
    exact ⟨hsave, hnew, fun hb => by rw [hnew] at hb; exact absurd hb.1 (by simp)⟩

/-- Witness for C2: the predicted-pacnew conditions instantiated on the
changed config record of the stubbed-pacman install scenario. -/
theorem claim_C2_witness :
    (c2wFc.predicted_pacnew = true →
      ((get_backup_files "pkg" (Source.Official "core" "x86_64") testEnvInstall).toOption.getD
        []).contains c2wFc.path = true ∧
      ((get_installed_file_list "pkg" testEnvInstall).toOption.getD []).contains
        c2wFc.path = true ∧
      c2wFc.is_config = true) ∧
    c2wFc.predicted_pacsave = false ∧
    ¬(c2wFc.predicted_pacnew = true ∧ c2wFc.predicted_pacsave = true) :=
  claim_C2.1 "pkg" (Source.Official "core" "x86_64")
    ["/etc/app.conf", "/usr/share/doc/", "/usr/bin/newtool"] testEnvInstall c2wInfo
    (by rfl) c2wFc (by decide)

theorem resolve_install_files_counts {name : String} {source : Source} {env : Env}
    {info : PackageFileInfo}
    (h : resolve_install_files name source env = Except.ok info) :
    info.name = name ∧ info.total_count = info.new_count + info.changed_count ∧
    info.removed_count = 0 ∧ info.pacsave_candidates = 0 := by
  unfold resolve_install_files at h
  cases hr : get_remote_file_list name source env with
  | error e => rw [hr] at h; exact absurd h (by simp)
  | ok remote => rw [hr] at h; exact rifwrl_counts h

theorem resolveOneItem_install_shape (cache : FileListMap) (env : Env) (item : PackageItem) :
    (resolveOneItem cache PreflightAction.Install env item).total_count =
      (resolveOneItem cache PreflightAction.Install env item).new_count +
      (resolveOneItem cache PreflightAction.Install env item).changed_count ∧
    (resolveOneItem cache PreflightAction.Install env item).removed_count = 0 ∧
    (resolveOneItem cache PreflightAction.Install env item).pacsave_candidates = 0 := by
  unfold resolveOneItem
  cases hres : resolveOneItemResult cache PreflightAction.Install env item with
  | error e => exact ⟨rfl, rfl, rfl⟩
  | ok info =>
    unfold resolveOneItemResult at hres
    by_cases hb : (decide (PreflightAction.Install = PreflightAction.Install) &&
        isOfficialSource item.source && (lookupA cache item.name).isSome) = true
    · rw [if_pos hb] at hres
      exact (rifwrl_counts hres).2
    · rw [if_neg hb] at hres
      unfold resolve_package_files at hres
      exact (resolve_install_files_counts hres).2

theorem resolveOneItem_remove_shape (cache : FileListMap) (env : Env) (item : PackageItem) :
    (resolveOneItem cache PreflightAction.Remove env item).total_count =
      (resolveOneItem cache PreflightAction.Remove env item).removed_count ∧
    (resolveOneItem cache PreflightAction.Remove env item).new_count = 0 ∧
    (resolveOneItem cache PreflightAction.Remove env item).changed_count = 0 ∧
    (resolveOneItem cache PreflightAction.Remove env item).pacnew_candidates = 0 := by
  unfold resolveOneItem
  cases hres : resolveOneItemResult cache PreflightAction.Remove env item with
  | error e => exact ⟨rfl, rfl, rfl, rfl⟩
  | ok info =>
    unfold resolveOneItemResult at hres
    have hcond : (decide (PreflightAction.Remove = PreflightAction.Install) &&
        isOfficialSource item.source && (lookupA cache item.name).isSome) = false := rfl
    rw [hcond] at hres
    simp only [Bool.false_eq_true, if_false] at hres
    unfold resolve_package_files at hres
    obtain ⟨_, _, _, _, hshape⟩ := remove_files_ok hres
    exact hshape

/-- C3: every summary produced for an Install action has
total = new + changed with no removals and no pacsave candidates, and
every summary produced for a Remove action has total = removed with no
new or changed files and no pacnew candidates; the all-zero placeholder
of a failed item satisfies both shapes. -/
theorem claim_C3 :
    (∀ (items : List PackageItem) (env : Env),
      ∀ info ∈ resolve_file_changes items PreflightAction.Install env,
        info.total_count = info.new_count + info.changed_count ∧
        info.removed_count = 0 ∧ info.pacsave_candidates = 0) ∧
    (∀ (items : List PackageItem) (env : Env),
      ∀ info ∈ resolve_file_changes items PreflightAction.Remove env,
        info.total_count = info.removed_count ∧ info.new_count = 0 ∧
        info.changed_count = 0 ∧ info.pacnew_candidates = 0) := by
  constructor
  · intro items env info hmem
    unfold resolve_file_changes at hmem
    by_cases he : items.isEmpty = true
    · rw [if_pos he] at hmem; exact absurd hmem (by simp)
    · rw [if_neg he, List.mem_map] at hmem
      obtain ⟨item, _, hitem⟩ := hmem
      rw [← hitem]
      exact resolveOneItem_install_shape _ _ _
  · intro items env info hmem
    unfold resolve_file_changes at hmem
    by_cases he : items.isEmpty = true
    · rw [if_pos he] at hmem; exact absurd hmem (by simp)
    · rw [if_neg he, List.mem_map] at hmem
      obtain ⟨item, _, hitem⟩ := hmem
      rw [← hitem]
      exact resolveOneItem_remove_shape _ _ _

/-- Witness for C3: both count shapes instantiated on the stubbed-pacman
scenario's install and remove summaries for one official package. -/
theorem claim_C3_witness :
    (c2wInfo.total_count = c2wInfo.new_count + c2wInfo.changed_count ∧
      c2wInfo.removed_count = 0 ∧ c2wInfo.pacsave_candidates = 0) ∧
    (c3wRemoveInfo.total_count = c3wRemoveInfo.removed_count ∧ c3wRemoveInfo.new_count = 0 ∧
      c3wRemoveInfo.changed_count = 0 ∧ c3wRemoveInfo.pacnew_candidates = 0) :=
  ⟨claim_C3.1 [⟨"pkg", Source.Official "core" "x86_64"⟩] testEnvInstall c2wInfo (by decide),
   claim_C3.2 [⟨"pkg", Source.Official "core" "x86_64"⟩] testEnvInstall c3wRemoveInfo (by decide)⟩

theorem resolveOneItemResult_name {cache : FileListMap} {action : PreflightAction}
    {env : Env} {item : PackageItem} {info : PackageFileInfo}
    (h : resolveOneItemResult cache action env item = Except.ok info) :
    info.name = item.name := by
  unfold resolveOneItemResult at h
  by_cases hb : (decide (action = PreflightAction.Install) && isOfficialSource item.source &&
      (lookupA cache item.name).isSome) = true
  · rw [if_pos hb] at h
    exact (rifwrl_counts h).1
  · rw [if_neg hb] at h
    unfold resolve_package_files at h
    cases action with
    | Install => exact (resolve_install_files_counts h).1
    | Remove =>
      obtain ⟨_, _, _, hname, _⟩ := remove_files_ok h
      exact hname

theorem resolveOneItem_name (cache : FileListMap) (action : PreflightAction) (env : Env)
    (item : PackageItem) : (resolveOneItem cache action env item).name = item.name := by
  unfold resolveOneItem
  cases hres : resolveOneItemResult cache action env item with
  | error e => rfl
  | ok info => exact resolveOneItemResult_name hres

/-- C1: resolve_file_changes yields exactly one summary per input item, in
input order, each named after its item; and an item whose per-item
resolution fails still occupies its position, carrying the all-zero
summary with an empty file list, so one failure never aborts the batch. -/
theorem claim_C1 :
    (∀ (items : List PackageItem) (action : PreflightAction) (env : Env),
      (resolve_file_changes items action env).map (fun info => info.name) =
        items.map (fun item => item.name)) ∧
    (∀ (items : List PackageItem) (action : PreflightAction) (env : Env)
      (i : Nat) (hi : i < items.length) (e : String),
      resolveOneItemResult (filesBatchCache items action env) action env items[i] =
        Except.error e →
      (resolve_file_changes items action env)[i]? =
        some (emptyPackageFileInfo items[i].name)) := by
  constructor
  · intro items action env
    unfold resolve_file_changes
    by_cases he : items.isEmpty = true
    · rw [if_pos he, List.isEmpty_iff.mp he]; rfl
    · rw [if_neg he, List.map_map]
      exact List.map_congr_left (fun item _ => resolveOneItem_name _ _ _ item)
  · intro items action env i hi e h
    have he : items.isEmpty = false := by
      cases items with
      | nil => exact absurd hi (by simp)
      | cons a l => rfl
    have hmap : resolve_file_changes items action env =
        items.map (resolveOneItem (filesBatchCache items action env) action env) := by
      unfold resolve_file_changes
      rw [he]
      simp only [Bool.false_eq_true, if_false]
    rw [hmap, List.getElem?_map, List.getElem?_eq_getElem hi, Option.map_some']
    have herr : resolveOneItem (filesBatchCache items action env) action env items[i] =
        emptyPackageFileInfo items[i].name := by
      unfold resolveOneItem
      rw [h]
    rw [herr]

/-- Witness for C1: with every command failing to spawn, the one-item
Remove batch still returns one entry, named after the item, and that
entry is the all-zero summary. -/
theorem claim_C1_witness :
    (resolve_file_changes [⟨"pkg", Source.Aur⟩] PreflightAction.Remove noEnv).map
      (fun info => info.name) =
      ([⟨"pkg", Source.Aur⟩] : List PackageItem).map (fun item => item.name) ∧
    (resolve_file_changes [⟨"pkg", Source.Aur⟩] PreflightAction.Remove noEnv)[0]? =
      some (emptyPackageFileInfo "pkg") :=
  ⟨claim_C1.1 [⟨"pkg", Source.Aur⟩] PreflightAction.Remove noEnv,
   claim_C1.2 [⟨"pkg", Source.Aur⟩] PreflightAction.Remove noEnv 0 (by decide)
     "pacman -Ql failed" (by rfl)⟩

/-! # Membership lemmas for the dependency resolver -/

theorem buildDeps_mem {name : String} {specs installed provided upgradable : List String}
    {d : DependencyInfo} (h : d ∈ buildDeps name specs installed provided upgradable) :
    soLike d.name = false ∧ d.name ≠ name := by
  unfold buildDeps at h
  rw [List.mem_filterMap] at h
  obtain ⟨spec, _, heq⟩ := h
  simp only at heq
  split_ifs at heq with h1 h2
  injection heq with heq
  rw [← heq]
  exact ⟨by simpa using h2, h1⟩

theorem mergeSrcinfo_mem {name : String} {deps1 : List DependencyInfo} {txt : String}
    {installed provided upgradable : List String} {d : DependencyInfo}
    (h : d ∈ mergeSrcinfo name deps1 txt installed provided upgradable) :
    d ∈ deps1 ∨ (soLike d.name = false ∧ d.name ≠ name) := by
  unfold mergeSrcinfo at h
  rw [List.mem_append] at h
  rcases h with h | h
  · exact Or.inl h
  · rw [List.mem_filterMap] at h
    obtain ⟨spec, _, heq⟩ := h
    simp only at heq
    split_ifs at heq with h1 h2 h3
    injection heq with heq
    rw [← heq]
    exact Or.inr ⟨by simpa using h2, h1⟩

theorem helper_si_deps_mem {has : Bool} {res : Option CmdOut} {name : String}
    {installed provided upgradable : List String} {d : DependencyInfo}
    (h : d ∈ (helper_si_deps has res name installed provided upgradable).1) :
    soLike d.name = false ∧ d.name ≠ name := by
  cases has with
  | false => simp [helper_si_deps] at h
  | true =>
    cases res with
    | none => simp [helper_si_deps] at h
    | some out =>
      cases out with
      | mk success stdout stderr =>
        cases success with
        | false => simp [helper_si_deps] at h
        | true =>
          by_cases hn : (parse_pacman_si_deps stdout).isEmpty = true
          · simp [helper_si_deps, hn] at h
          · simp only [helper_si_deps, if_true] at h
            rw [if_neg hn] at h
            exact buildDeps_mem h

theorem aur_helper_deps_mem {name : String} {installed provided upgradable : List String}
    {env : Env} {d : DependencyInfo}
    (h : d ∈ (aur_helper_deps name installed provided upgradable env).1) :
    soLike d.name = false ∧ d.name ≠ name := by
  unfold aur_helper_deps at h
  by_cases hp : (helper_si_deps env.hasParu (env.paruSi name) name installed provided
      upgradable).2 = true
  · rw [if_pos hp] at h
    exact helper_si_deps_mem h
  · rw [if_neg hp] at h
    exact helper_si_deps_mem h

theorem resolve_package_deps_mem {name : String} {source : Source}
    {installed provided upgradable : List String} {env : Env} {l : List DependencyInfo}
    {d : DependencyInfo}
    (h : resolve_package_deps name source installed provided upgradable env = Except.ok l)
    (hdl : d ∈ l) : soLike d.name = false ∧ d.name ≠ name := by
  cases source with
  | Official repo arch =>
    simp only [resolve_package_deps] at h
    split at h
    · split at h
      · exact absurd h (by simp)
      · split at h
        · rw [Except.ok.injEq] at h
          rw [← h] at hdl
          exact absurd hdl (by simp)
        · rw [Except.ok.injEq] at h
          rw [← h] at hdl
          exact buildDeps_mem hdl
    · split at h
      · exact absurd h (by simp)
      · split at h
        · exact absurd h (by simp)
        · rw [Except.ok.injEq] at h
          rw [← h] at hdl
          exact buildDeps_mem hdl
  | Aur =>
    simp only [resolve_package_deps] at h
    split at h
    · rw [Except.ok.injEq] at h
      rw [← h] at hdl
      rcases mergeSrcinfo_mem hdl with hmem | hprops
      · exact aur_helper_deps_mem hmem
      · exact hprops
    · rw [Except.ok.injEq] at h
      rw [← h] at hdl
      exact aur_helper_deps_mem hdl

/-- C4: the AUR branch of resolve_package_deps never returns an error,
whatever the helper availability, helper query outcomes and .SRCINFO
fetch outcome recorded in the environment. -/
theorem claim_C4 (name : String) (installed provided upgradable : List String) (env : Env) :
    ∃ l, resolve_package_deps name Source.Aur installed provided upgradable env =
      Except.ok l := by
  simp only [resolve_package_deps]
  cases hsf : env.srcinfoFetch name with
  | ok txt => exact ⟨_, rfl⟩
  | error e => exact ⟨_, rfl⟩

/-- C8: no dependency record returned by resolve_package_deps, on any
source branch, has a shared-library pseudo-dependency name (ending in .so
or containing .so. or .so=). -/
theorem claim_C8 (name : String) (source : Source)
    (installed provided upgradable : List String) (env : Env) (l : List DependencyInfo)
    (h : resolve_package_deps name source installed provided upgradable env = Except.ok l) :
    ∀ d ∈ l, soLike d.name = false :=
  fun _ hdl => (resolve_package_deps_mem h hdl).1

/-- Witness for C8: the stubbed official scenario's first resolved
dependency is not a shared-library pseudo-dependency. -/
theorem claim_C8_witness : soLike (mkDependencyInfo "pkg" "dep1" "" [] [] []).name = false :=
  claim_C8 "pkg" (Source.Official "extra" "x86_64") [] [] [] c8wEnv c8wList (by rfl)
    (mkDependencyInfo "pkg" "dep1" "" [] [] []) (by decide)

/-- C9: no dependency record returned by resolve_package_deps, on any
source branch, is named after the package being resolved. -/
theorem claim_C9 (name : String) (source : Source)
    (installed provided upgradable : List String) (env : Env) (l : List DependencyInfo)
    (h : resolve_package_deps name source installed provided upgradable env = Except.ok l) :
    ∀ d ∈ l, d.name ≠ name :=
  fun _ hdl => (resolve_package_deps_mem h hdl).2

/-- Witness for C9: in the stubbed AUR helper scenario, whose Depends On
line lists the package itself, a resolved dependency differs from the
resolved package's name (and the self-reference is absent from the
resolved list). -/
theorem claim_C9_witness :
    (mkDependencyInfo "pkg" "helper" "" [] [] []).name ≠ "pkg" :=
  claim_C9 "pkg" Source.Aur [] [] [] c9wEnv c9wList (by rfl)
    (mkDependencyInfo "pkg" "helper" "" [] [] []) (by decide)

/-! # Batch-abort lemmas -/

theorem mem_take_idx {l : List α} {n : Nat} {x : α} (h : x ∈ l.take n) :
    ∃ k, k < n ∧ l[k]? = some x := by
  induction l generalizing n with
  | nil => simp at h
  | cons a as ih =>
    cases n with
    | zero => simp at h
    | succ m =>
      rw [List.take_succ_cons] at h
      rcases List.mem_cons.mp h with rfl | h'
      · exact ⟨0, Nat.succ_pos m, by simp⟩
      · obtain ⟨k, hk, hg⟩ := ih h'
        exact ⟨k + 1, Nat.succ_lt_succ hk, by simpa using hg⟩

theorem batchDepsLoop_stop (env : Env) (cs : List (List String)) (acc : FileListMap)
    (j : Nat) (c : List String) (hj : cs[j]? = some c)
    (hfail : chunkFails env c = true)
    (hpre : ∀ k, k < j → ∀ ck, cs[k]? = some ck → chunkFails env ck = false) :
    batchDepsLoop env acc cs = batchDepsLoop env acc (cs.take j) := by
  induction cs generalizing acc j c with
  | nil => simp at hj
  | cons c0 rest ih =>
    cases j with
    | zero =>
      simp only [List.getElem?_cons_zero, Option.some.injEq] at hj
      subst hj
      cases hq : env.pacmanSi c0 with
      | none => simp [batchDepsLoop, hq]
      | some out =>
        have hsu : out.success = false := by
          unfold chunkFails at hfail
          rw [hq] at hfail
          simpa using hfail
        simp [batchDepsLoop, hq, hsu]
    | succ m =>
      have hsucc := hpre 0 (Nat.succ_pos m) c0 (by simp)
      unfold chunkFails at hsucc
      cases hq : env.pacmanSi c0 with
      | none => rw [hq] at hsucc; simp at hsucc
      | some out =>
        rw [hq] at hsucc
        have hsu : out.success = true := by simpa using hsucc
        have hstep : ∀ (a : FileListMap) (t : List (List String)),
            batchDepsLoop env a (c0 :: t) =
            batchDepsLoop env (insertDepEntries a out.stdout) t := by
          intro a t
          simp [batchDepsLoop, hq, hsu]
        rw [List.take_succ_cons, hstep acc rest, hstep acc (rest.take m)]
        exact ih (insertDepEntries acc out.stdout) m c (by simpa using hj) hfail
          (fun k hk ck hck => hpre (k + 1) (Nat.succ_lt_succ hk) ck (by simpa using hck))

theorem batchDepsLoop_congr (env env' : Env) (cs : List (List String)) (acc : FileListMap)
    (hagree : ∀ c ∈ cs, env'.pacmanSi c = env.pacmanSi c) :
    batchDepsLoop env' acc cs = batchDepsLoop env acc cs := by
  induction cs generalizing acc with
  | nil => rfl
  | cons c0 rest ih =>
    have h0 : env'.pacmanSi c0 = env.pacmanSi c0 := hagree c0 (by simp)
    cases hq : env.pacmanSi c0 with
    | none => simp [batchDepsLoop, hq, h0]
    | some out =>
      cases hsu : out.success with
      | false => simp [batchDepsLoop, hq, h0, hsu]
      | true =>
        simp only [batchDepsLoop, hq, h0, hsu, if_true]
        exact ih _ (fun ck hck => hagree ck (by simp [hck]))

/-- C5: batch_fetch_official_deps processes the 50-element chunks of its
input in order, one query per chunk; at the first failing chunk it stops:
the returned map is exactly the fold over the chunks before the failing
one, and the answers recorded for any later chunk are never consulted
(changing them leaves the result unchanged), so there is no retry inside
the batch function. -/
theorem claim_C5 (names : List String) (env : Env) (j : Nat) (c : List String)
    (hj : (chunksOf 50 names)[j]? = some c)
    (hfail : chunkFails env c = true)
    (hpre : ∀ k, k < j → ∀ ck, (chunksOf 50 names)[k]? = some ck →
      chunkFails env ck = false) :
    batch_fetch_official_deps names env =
      batchDepsLoop env [] ((chunksOf 50 names).take j) ∧
    ∀ env' : Env,
      (∀ k, k ≤ j → ∀ ck, (chunksOf 50 names)[k]? = some ck →
        env'.pacmanSi ck = env.pacmanSi ck) →
      batch_fetch_official_deps names env' = batch_fetch_official_deps names env := by
  have hstop : batch_fetch_official_deps names env =
      batchDepsLoop env [] ((chunksOf 50 names).take j) :=
    batchDepsLoop_stop env (chunksOf 50 names) [] j c hj hfail hpre
  refine ⟨hstop, ?_⟩
  intro env' hagree
  have hfail' : chunkFails env' c = true := by
    unfold chunkFails at hfail ⊢
    rw [hagree j (Nat.le_refl j) c hj]
    exact hfail
  have hpre' : ∀ k, k < j → ∀ ck, (chunksOf 50 names)[k]? = some ck →
      chunkFails env' ck = false := by
    intro k hk ck hck
    have hp := hpre k hk ck hck
    unfold chunkFails at hp ⊢
    rw [hagree k (Nat.le_of_lt hk) ck hck]
    exact hp
  have hstop' : batch_fetch_official_deps names env' =
      batchDepsLoop env' [] ((chunksOf 50 names).take j) :=
    batchDepsLoop_stop env' (chunksOf 50 names) [] j c hj hfail' hpre'
  rw [hstop', hstop]
  exact batchDepsLoop_congr env env' ((chunksOf 50 names).take j) []
    (fun ck hck => by
      obtain ⟨k, hk, hg⟩ := mem_take_idx hck
      exact hagree k (Nat.le_of_lt hk) ck hg)

/-- Witness for C5: one name whose single chunk's query fails to spawn;
the batch returns the fold over the empty chunk prefix. -/
theorem claim_C5_witness :
    batch_fetch_official_deps ["a"] noEnv =
      batchDepsLoop noEnv [] ((chunksOf 50 ["a"]).take 0) :=
  (claim_C5 ["a"] noEnv 0 ["a"] (by rfl) (by decide)
    (fun k hk _ _ => absurd hk (Nat.not_lt_zero k))).1

/-- C7: for an AUR install item that is not installed locally, with no
helper file list available, whose recipe fetch succeeds but whose
heuristic install-path scan finds nothing, the resolved remote file list
is exactly the synthesized pair /usr/bin/name and /usr/share/name. -/
theorem claim_C7 (name : String) (env : Env) (pb : String)
    (hinst : ∀ l, get_installed_file_list name env = Except.ok l → l = [])
    (hparu : helper_fl_files env.hasParu (env.paruFl name) = [])
    (hyay : helper_fl_files env.hasYay (env.yayFl name) = [])
    (hpb : fetch_pkgbuild_sync name env = Except.ok pb)
    (hext : parse_install_paths_core pb = []) :
    get_remote_file_list name Source.Aur env =
      Except.ok ["/usr/bin/" ++ name, "/usr/share/" ++ name] := by
  have hstep : (match get_installed_file_list name env with
      | Except.ok l => if !l.isEmpty then some l else none
      | Except.error _ => none) = (none : Option (List String)) := by
    cases hg : get_installed_file_list name env with
    | ok l =>
      have hl := hinst l hg
      subst hl
      rfl
    | error e => rfl
  simp only [get_remote_file_list]
  rw [hstep]
  simp only [hparu, hyay, List.isEmpty_nil, Bool.not_true, Bool.false_eq_true, if_false]
  rw [hpb]
  simp only [parse_install_paths_from_pkgbuild, hext, List.isEmpty_nil, if_true,
    List.isEmpty_cons, Bool.not_false]

/-- Witness for C7: a package whose PKGBUILD holds only its name; the
remote list degrades to the synthesized pair. -/
theorem claim_C7_witness :
    get_remote_file_list "pkg" Source.Aur c7wEnv =
      Except.ok ["/usr/bin/pkg", "/usr/share/pkg"] :=
  claim_C7 "pkg" c7wEnv "pkgname=pkg\n"
    (fun l hl => by
      have hok : Except.ok ([] : List String) = Except.ok l := hl
      exact (Except.ok.inj hok).symm)
    (by rfl) (by rfl) (by rfl) (by decide)

/-- C10: when the official remote file-listing query exits non-zero with
a stderr naming a missing file database, get_remote_file_list degrades to
an empty success and the install resolver produces the zero-file summary
through its success path; any other non-zero exit yields an error. -/
theorem claim_C10 (name repo arch : String) (env : Env) (out : CmdOut)
    (hcmd : env.pacmanFl [officialSpec repo name] = some out)
    (hfail : out.success = false) :
    ((rustContains out.stderr "database file" &&
        rustContains out.stderr "does not exist") = true →
      get_remote_file_list name (Source.Official repo arch) env = Except.ok [] ∧
      resolve_install_files name (Source.Official repo arch) env =
        Except.ok (emptyPackageFileInfo name)) ∧
    ((rustContains out.stderr "database file" &&
        rustContains out.stderr "does not exist") = false →
      ∃ e, get_remote_file_list name (Source.Official repo arch) env = Except.error e) := by
  have hremote : get_remote_file_list name (Source.Official repo arch) env =
      (if (rustContains out.stderr "database file" &&
          rustContains out.stderr "does not exist") = true then Except.ok []
       else Except.error ("pacman -Fl failed for " ++ officialSpec repo name)) := by
    simp only [get_remote_file_list]
    rw [hcmd]
    simp only [hfail, Bool.not_false, if_true]
  constructor
  · intro hdb
    have h1 : get_remote_file_list name (Source.Official repo arch) env = Except.ok [] := by
      rw [hremote, if_pos hdb]
    refine ⟨h1, ?_⟩
    unfold resolve_install_files
    rw [h1]
    rfl
  · intro hdb
    refine ⟨"pacman -Fl failed for " ++ officialSpec repo name, ?_⟩
    rw [hremote, if_neg ?_]
    rw [hdb]
    exact Bool.false_ne_true

/-- Witness for C10: a never-synced file database produces an empty
success and the all-zero install summary. -/
theorem claim_C10_witness :
    get_remote_file_list "pkg" (Source.Official "core" "x86_64") c10wEnv = Except.ok [] ∧
    resolve_install_files "pkg" (Source.Official "core" "x86_64") c10wEnv =
      Except.ok (emptyPackageFileInfo "pkg") :=
  (claim_C10 "pkg" "core" "x86_64" c10wEnv
    ⟨false, "", "error: database file core.files does not exist"⟩ (by rfl) (by rfl)).1
    (by decide)

/-! # C6: backup discovery order -/

/-- Counterexample to C6 as stated.  Removal of an AUR-source package: the
available .SRCINFO declares /etc/a.conf backed up, yet the remove result
predicts a pacsave only for the PKGBUILD's /etc/b.conf — backup discovery
for Remove runs through the hard-coded official source, never .SRCINFO.
Install side: with .SRCINFO available (fetched fine) but declaring no
backup entry, discovery still falls back to the PKGBUILD and returns its
entries, not the empty .SRCINFO answer. -/
theorem claim_C6_counterexample :
    fetch_srcinfo_sync "pkg" c6ceEnv = Except.ok "backup = /etc/a.conf\n" ∧
    parse_backup_from_srcinfo "backup = /etc/a.conf\n" = ["/etc/a.conf"] ∧
    resolve_file_changes [⟨"pkg", Source.Aur⟩] PreflightAction.Remove c6ceEnv =
      [⟨"pkg",
        [⟨"/etc/a.conf", FileChangeType.Removed, "pkg", true, false, false⟩,
         ⟨"/etc/b.conf", FileChangeType.Removed, "pkg", true, false, true⟩],
        2, 0, 0, 2, 2, 0, 1⟩] ∧
    fetch_srcinfo_sync "pkg" c6ceEnv2 = Except.ok "pkgbase = pkg\npkgname = pkg\n" ∧
    get_backup_files "pkg" Source.Aur c6ceEnv2 = Except.ok ["/etc/b.conf"] :=
  ⟨rfl, rfl, rfl, rfl, rfl⟩

theorem get_backup_files_fallthrough {name : String} {env : Env}
    (h : ∀ l, get_backup_files_from_installed name env = Except.ok l → l = []) :
    ∀ source, get_backup_files name source env = get_backup_files_fallback name source env := by
  intro source
  simp only [get_backup_files]
  cases hg : get_backup_files_from_installed name env with
  | ok l =>
    have hl := h l hg
    subst hl
    simp
  | error e => rfl

theorem fetch_pkgbuild_sync_congr {name : String} {env env' : Env}
    (h1 : env'.curl (aurPkgbuildUrl name) = env.curl (aurPkgbuildUrl name))
    (h2 : env'.curl (gitlabMainUrl name) = env.curl (gitlabMainUrl name))
    (h3 : env'.curl (gitlabMasterUrl name) = env.curl (gitlabMasterUrl name)) :
    fetch_pkgbuild_sync name env' = fetch_pkgbuild_sync name env := by
  unfold fetch_pkgbuild_sync fetchPkgbuildGitlab fetchPkgbuildMaster
  rw [h1, h2, h3]

theorem get_backup_files_official_congr {name repo arch : String} {env env' : Env}
    (hqii : env'.pacmanQii name = env.pacmanQii name)
    (h1 : env'.curl (aurPkgbuildUrl name) = env.curl (aurPkgbuildUrl name))
    (h2 : env'.curl (gitlabMainUrl name) = env.curl (gitlabMainUrl name))
    (h3 : env'.curl (gitlabMasterUrl name) = env.curl (gitlabMasterUrl name)) :
    get_backup_files name (Source.Official repo arch) env' =
      get_backup_files name (Source.Official repo arch) env := by
  unfold get_backup_files get_backup_files_fallback
  rw [show get_backup_files_from_installed name env' =
      get_backup_files_from_installed name env from by
    unfold get_backup_files_from_installed
    rw [hqii]]
  rw [show pkgbuildBackupResult name env' = pkgbuildBackupResult name env from by
    unfold pkgbuildBackupResult
    rw [fetch_pkgbuild_sync_congr h1 h2 h3]]

/-- C6 as amended.  Backup discovery queries the installed package's
Backup Files field first and uses a non-empty answer outright.  When that
yields nothing: an Install-side AUR package takes its .SRCINFO's backup
entries when the fetch succeeds and they are non-empty, and otherwise —
when the fetch fails or the fetched file declares no backup entry — falls
back to the PKGBUILD leg; an official package takes the PKGBUILD leg.  A
Remove result is determined by the local queries and the PKGBUILD fetches
alone, whatever the package's source: the .SRCINFO answer recorded in the
environment is never consulted. -/
theorem claim_C6_amended :
    (∀ (name : String) (source : Source) (env : Env) (l : List String),
      get_backup_files_from_installed name env = Except.ok l → l ≠ [] →
      get_backup_files name source env = Except.ok l) ∧
    (∀ (name : String) (env : Env) (s : String),
      (∀ l, get_backup_files_from_installed name env = Except.ok l → l = []) →
      fetch_srcinfo_sync name env = Except.ok s →
      parse_backup_from_srcinfo s ≠ [] →
      get_backup_files name Source.Aur env = Except.ok (parse_backup_from_srcinfo s)) ∧
    (∀ (name : String) (env : Env),
      (∀ l, get_backup_files_from_installed name env = Except.ok l → l = []) →
      (∀ s, fetch_srcinfo_sync name env = Except.ok s → parse_backup_from_srcinfo s = []) →
      get_backup_files name Source.Aur env = pkgbuildBackupResult name env) ∧
    (∀ (name repo arch : String) (env : Env),
      (∀ l, get_backup_files_from_installed name env = Except.ok l → l = []) →
      get_backup_files name (Source.Official repo arch) env =
        pkgbuildBackupResult name env) ∧
    (∀ (name : String) (env env' : Env),
      env'.pacmanQl name = env.pacmanQl name →
      env'.pacmanQii name = env.pacmanQii name →
      env'.curl (aurPkgbuildUrl name) = env.curl (aurPkgbuildUrl name) →
      env'.curl (gitlabMainUrl name) = env.curl (gitlabMainUrl name) →
      env'.curl (gitlabMasterUrl name) = env.curl (gitlabMasterUrl name) →
      resolve_remove_files name env' = resolve_remove_files name env) := by
  refine ⟨?_, ?_, ?_, ?_, ?_⟩
  · intro name source env l h hne
    simp only [get_backup_files]
    rw [h]
    have hl : l.isEmpty = false := by simpa [List.isEmpty_iff] using hne
    simp [hl]
  · intro name env s hinst hsf hne
    rw [get_backup_files_fallthrough hinst Source.Aur]
    simp only [get_backup_files_fallback]
    rw [hsf]
    have hl : (parse_backup_from_srcinfo s).isEmpty = false := by
      simpa [List.isEmpty_iff] using hne
    simp [hl]
  · intro name env hinst hsrc
    rw [get_backup_files_fallthrough hinst Source.Aur]
    simp only [get_backup_files_fallback]
    cases hsf : fetch_srcinfo_sync name env with
    | ok s =>
      have hb := hsrc s hsf
      simp [hb]
    | error e => rfl
  · intro name repo arch env hinst
    rw [get_backup_files_fallthrough hinst (Source.Official repo arch)]
    rfl
  · intro name env env' hql hqii h1 h2 h3
    have hgil : get_installed_file_list name env' = get_installed_file_list name env := by
      unfold get_installed_file_list
      rw [hql]
    have hgb : get_backup_files name (Source.Official "" "") env' =
        get_backup_files name (Source.Official "" "") env :=
      get_backup_files_official_congr hqii h1 h2 h3
    unfold resolve_remove_files
    rw [hgil, hgb]

/-- Witness for the amended C6: each priority arm instantiated — installed
Backup Files winning, .SRCINFO winning on Install, the empty-.SRCINFO and
official fallbacks to the PKGBUILD leg, and a Remove result unchanged
under a different recorded .SRCINFO answer. -/
theorem claim_C6_amended_witness :
    get_backup_files "pkg" Source.Aur c6wEnvA = Except.ok ["/etc/app.conf"] ∧
    get_backup_files "pkg" Source.Aur c6wEnvB =
      Except.ok (parse_backup_from_srcinfo "backup = /etc/a.conf\n") ∧
    get_backup_files "pkg" Source.Aur c6ceEnv2 = pkgbuildBackupResult "pkg" c6ceEnv2 ∧
    get_backup_files "pkg" (Source.Official "" "") c6ceEnv =
      pkgbuildBackupResult "pkg" c6ceEnv ∧
    resolve_remove_files "pkg" c6wEnvE = resolve_remove_files "pkg" c6ceEnv :=
  ⟨claim_C6_amended.1 "pkg" Source.Aur c6wEnvA ["/etc/app.conf"] (by rfl) (by decide),
   claim_C6_amended.2.1 "pkg" c6wEnvB "backup = /etc/a.conf\n"
     (fun l hl => absurd
       (show Except.error "pacman -Qii failed" = Except.ok l from hl) (by simp))
     (by rfl) (by decide),
   claim_C6_amended.2.2.1 "pkg" c6ceEnv2
     (fun l hl => (Except.ok.inj
       (show Except.ok ([] : List String) = Except.ok l from hl)).symm)
     (fun s hs => by
       rw [← Except.ok.inj
         (show Except.ok "pkgbase = pkg\npkgname = pkg\n" = Except.ok s from hs)]
       rfl),
   claim_C6_amended.2.2.2.1 "pkg" "" "" c6ceEnv
     (fun l hl => (Except.ok.inj
       (show Except.ok ([] : List String) = Except.ok l from hl)).symm),
   claim_C6_amended.2.2.2.2 "pkg" c6ceEnv c6wEnvE (by rfl) (by rfl) (by decide)
     (by decide) (by decide)⟩

end Pacsea
